import Mathlib

/-!
# greetbot: request admission, event dispatch and server lifecycle

A shallow embedding of `cmd/greet/handlers.go` and `cmd/greet/server.go`.

* JSON documents are the values handed out by `github.com/valyala/fastjson`;
  the accessors used by the handlers (`Get`, `Exists`, `StringBytes`, `Int64`,
  `Array`) are embedded with the behaviour of that library, nil receivers
  included.
* The two library entry points that consume raw text, `mime.ParseMediaType`
  and `fastjson.ParseBytes`, are fields of `Lib`: every general theorem holds
  for any implementation of them.  `refLib` is a reference instance used to
  evaluate the handlers at concrete requests.
* A handler run yields the state of the `http.ResponseWriter`, the ordered
  list of effects it performed and the panic that ended it, if any.
* `runServer` is a transition system over the program counters of its
  goroutines and the contents of its channels.
-/

namespace Greetbot

/-! ## JSON values (fastjson) -/

/-- A parsed JSON value.  Numbers keep their source text, as in fastjson. -/
inductive Value where
  | null
  | vtrue
  | vfalse
  | number (raw : String)
  | string (s : String)
  | array (a : List Value)
  | object (kvs : List (String × Value))

/-- The name of the value's type as fastjson prints it in error texts. -/
def Value.typeName : Value → String
  | .null => "null"
  | .vtrue => "true"
  | .vfalse => "false"
  | .number _ => "number"
  | .string _ => "string"
  | .array _ => "array"
  | .object _ => "object"

/-- A run-time panic of the Go program. -/
inductive Panic where
  | nilDeref
  | indexOutOfRange (i len : Nat)
  deriving DecidableEq, Repr

/-- The decimal digits. -/
def isDigit (c : Char) : Bool := decide ('0' ≤ c) && decide (c ≤ '9')

/-- The value of a decimal digit. -/
def digitVal (c : Char) : Nat := c.toNat - '0'.toNat

/-- Accumulates a run of decimal digits; fails on any other character. -/
def parseDigitsAux (acc : Nat) : List Char → Option Nat
  | [] => some acc
  | c :: cs => if isDigit c then parseDigitsAux (acc * 10 + digitVal c) cs else none

/-- A non-empty run of decimal digits. -/
def parseDigits (cs : List Char) : Option Nat :=
  match cs with
  | [] => none
  | _ :: _ => parseDigitsAux 0 cs

/-- Go `strconv.ParseInt(s, 10, 64)`: an optional sign, then decimal digits,
the result within the range of int64. -/
def strconvParseInt (s : List Char) : Option Int :=
  match s with
  | [] => none
  | c :: ds =>
    if c = '-' then
      match parseDigits ds with
      | some n => if n ≤ 2 ^ 63 then some (-(n : Int)) else none
      | none => none
    else if c = '+' then
      match parseDigits ds with
      | some n => if n < 2 ^ 63 then some (n : Int) else none
      | none => none
    else
      match parseDigits (c :: ds) with
      | some n => if n < 2 ^ 63 then some (n : Int) else none
      | none => none

/-- Go `strconv.Atoi`. -/
def Atoi (s : String) : Option Int := strconvParseInt s.toList

/-- fastjson `Object.Get`: the value of the first member with the given key. -/
def Object.Get : List (String × Value) → String → Option Value
  | [], _ => none
  | (k, v) :: rest, key => if k = key then some v else Object.Get rest key

/-- fastjson `Value.Get` with one key: a member of an object, or the element
of an array whose index the key spells in decimal; nil otherwise. -/
def Value.Get (v : Value) (key : String) : Option Value :=
  match v with
  | .object kvs => Object.Get kvs key
  | .array a =>
    match Atoi key with
    | some n => if n < 0 then none else a[n.toNat]?
    | none => none
  | _ => none

/-- fastjson `Value.Exists`: whether `Get` is non-nil. -/
def Value.Exists (v : Value) (key : String) : Bool := (v.Get key).isSome

/-- fastjson `Value.StringBytes`. -/
def Value.StringBytes (v : Value) : Except String String :=
  match v with
  | .string s => .ok s
  | _ => .error ("value doesn't contain string; it contains " ++ v.typeName)

/-- Outcome of the digit loop of `fastfloat.ParseInt64BestEffort`. -/
inductive DigitLoop where
  | fallback
  | stopped (i : Nat) (d : Int) (rest : List Char)

/-- The digit loop of `fastfloat.ParseInt64BestEffort`: `i` is the index of the
next character, `d` the value read so far.  Once the index passes 18 the
function falls back to `strconv.ParseInt`. -/
def digitLoop : List Char → Nat → Int → DigitLoop
  | [], i, d => .stopped i d []
  | c :: cs, i, d =>
    if isDigit c then
      if i + 1 > 18 then .fallback else digitLoop cs (i + 1) (d * 10 + (digitVal c : Int))
    else .stopped i d (c :: cs)

/-- The function `fastfloat.ParseInt64BestEffort`: 0 when the text is not an integer. -/
def ParseInt64BestEffort (s : List Char) : Int :=
  match s with
  | [] => 0
  | c :: cs =>
    let minus : Bool := c = '-'
    let j : Nat := if minus then 1 else 0
    let body : List Char := if minus then cs else c :: cs
    if minus && cs.isEmpty then 0
    else
      match digitLoop body j 0 with
      | .fallback =>
        match strconvParseInt s with
        | some dd => dd
        | none => 0
      | .stopped i d rest =>
        if i ≤ j then 0
        else if !rest.isEmpty then 0
        else if minus then -d else d

/-- fastjson `Value.Int64`. -/
def Value.Int64 (v : Value) : Except String Int :=
  match v with
  | .number raw =>
    let n := ParseInt64BestEffort raw.toList
    if n = 0 ∧ raw ≠ "0" then .error ("cannot parse int64 " ++ raw) else .ok n
  | _ => .error ("value doesn't contain number; it contains " ++ v.typeName)

/-- fastjson `Value.Array`, called through a possibly nil pointer: the method
reads a field of its receiver, so a nil receiver panics. -/
def Value.Array (v : Option Value) : Except Panic (Except String (List Value)) :=
  match v with
  | none => .error .nilDeref
  | some (.array a) => .ok (.ok a)
  | some w => .ok (.error ("value doesn't contain array; it contains " ++ w.typeName))

/-! ## HTTP requests and responses (net/http) -/

/-- A request body stream: the bytes it delivers, and the error with which it
ends instead of end-of-file, if any.  The error is reported by the read that
follows the last byte. -/
structure Body where
  data : List UInt8
  err : Option String := none

/-- The parts of `*http.Request` the handlers look at.  `requestID` is the
value `ctxRequestID` finds in the request context. -/
structure Request where
  method : String
  header : List (String × String)
  body : Body
  requestID : Option String := none

/-- Go `http.Header.Get`: the first value of the key, or the empty string. -/
def Header.Get (h : List (String × String)) (key : String) : String :=
  match h.lookup key with
  | some v => v
  | none => ""

/-- Go `http.Header.Set`: replaces the values of the key. -/
def Header.Set (h : List (String × String)) (key val : String) : List (String × String) :=
  h.filter (fun p => p.1 != key) ++ [(key, val)]

/-- The state of an `http.ResponseWriter`: the header map the handler edits,
and what has been sent. -/
structure ResponseWriter where
  header : List (String × String) := []
  status : Option Nat := none
  sentHeader : List (String × String) := []
  body : String := ""
  deriving DecidableEq, Repr

/-- The method `w.Header().Set`. -/
def ResponseWriter.SetHeader (w : ResponseWriter) (key val : String) : ResponseWriter :=
  { w with header := Header.Set w.header key val }

/-- The method `w.WriteHeader`: sends the status line and the current header map; a
second call is ignored. -/
def ResponseWriter.WriteHeader (w : ResponseWriter) (code : Nat) : ResponseWriter :=
  match w.status with
  | some _ => w
  | none => { w with status := some code, sentHeader := w.header }

/-- The method `w.Write`: the first write sends status 200 if none was sent. -/
def ResponseWriter.Write (w : ResponseWriter) (s : String) : ResponseWriter :=
  let w1 := w.WriteHeader 200
  { w1 with body := w1.body ++ s }

/-- What the client receives of the handler: the status, the header map as the
handler left it when the status line went out, and the body.  The headers the
server adds by itself (Date, Content-Length) are not modelled. -/
structure Response where
  status : Nat
  header : List (String × String)
  body : String
  deriving DecidableEq, Repr

/-- When a handler returns, the server sends status 200 if nothing was sent. -/
def ResponseWriter.finish (w : ResponseWriter) : Response :=
  let w1 := w.WriteHeader 200
  { status := w1.status.getD 200, header := w1.sentHeader, body := w1.body }

/-- The constant `http.MethodPost`. -/
def MethodPost : String := "POST"

/-- The status codes of package net/http that the program uses. -/
def StatusBadRequest : Nat := 400

def StatusUnauthorized : Nat := 401

def StatusMethodNotAllowed : Nat := 405

def StatusUnsupportedMediaType : Nat := 415

def StatusUnprocessableEntity : Nat := 422

def StatusInternalServerError : Nat := 500

/-- Go `ioutil.ReadAll(io.LimitReader(body, n))`: at most `n` bytes are taken
from the stream; the stream's error is met only when fewer than `n` bytes
precede it. -/
def ReadAllLimit (b : Body) (n : Nat) : Except String (List UInt8) :=
  match b.err with
  | some e => if b.data.length < n then .error e else .ok (b.data.take n)
  | none => .ok (b.data.take n)

/-- The library functions that consume raw text. -/
structure Lib where
  /-- Go `mime.ParseMediaType`: the media type and its parameters, or an error. -/
  ParseMediaType : String → Except String (String × List (String × String))
  /-- The function `fastjson.ParseBytes`. -/
  ParseBytes : List UInt8 → Except String Value

/-! ## handlers.go -/

/-- Line 15: the most bytes of a request body the handler reads. -/
def maxBodySize : Nat := 2 * 1024 * 1024

/-- What a handler does besides writing the response, in order. -/
inductive Effect where
  | log (level : String) (fields : List (String × String)) (msg : String)
  | stdlog (line : String)
  | parseMediaType (v : String)
  | readBody (limit : Nat)
  | parseJSON (bytes : List UInt8)
  | processFurther (event : Value)
  | handleMentionEvents (event : Value)

/-- The result of running a handler. -/
structure HResult where
  w : ResponseWriter
  trace : List Effect
  panic : Option Panic := none

/-- What the client sees of a handler run: a panic is recovered by the server,
which then drops the connection without a response. -/
def HResult.response (h : HResult) : Option Response :=
  match h.panic with
  | some _ => none
  | none => some h.w.finish

/-- Lines 21 to 36.  `Exists` is `Get` compared with nil, so the test and the
lookup that follows it are one match; the copy of the bytes is the string. -/
def getJSONString (document : Value) (key : String) : Except String String :=
  match document.Get key with
  | none => .error ("failed to get field " ++ key ++ ": key does not exist")
  | some v =>
    match v.StringBytes with
    | .error e => .error ("failed to get field " ++ key ++ ": " ++ e)
    | .ok s => .ok s

/-- Lines 38 to 49. -/
def getJSONInt64 (document : Value) (key : String) : Except String Int :=
  match document.Get key with
  | none => .error ("failed to get field " ++ key ++ ": key does not exist")
  | some v =>
    match v.Int64 with
    | .error e => .error ("failed to get field " ++ key ++ ": " ++ e)
    | .ok n => .ok n

/-- Lines 51 to 72: the event type, the event id and the event time; for a
url_verification the last two are left at their zero values. -/
def requestValues (document : Value) : Except String (String × String × Int) :=
  match getJSONString document "type" with
  | .error e => .error ("failed to get type field: " ++ e)
  | .ok eventType =>
    if eventType = "url_verification" then .ok (eventType, "", 0)
    else
      match getJSONString document "event_id" with
      | .error _ => .error "failed to get event_id field"
      | .ok eventID =>
        match getJSONInt64 document "event_time" with
        | .error e => .error ("failed to get event_time field: " ++ e)
        | .ok eventTimestamp => .ok (eventType, eventID, eventTimestamp)

/-- Lines 74 to 87. -/
def urlVerification (w : ResponseWriter) (document : Value) (logger : List (String × String)) :
    HResult :=
  match getJSONString document "challenge" with
  | .error e =>
    { w := w.WriteHeader StatusUnprocessableEntity,
      trace := [.log "error" (logger ++ [("error", e)]) "failed URL verification"] }
  | .ok challenge =>
    { w := (w.SetHeader "Content-Type" "plain/text").Write challenge, trace := [] }

/-- The slice a Go caller holds after `x, err := v.Array()`: nil on error. -/
def sliceOf (r : Except String (List Value)) : List Value :=
  match r with
  | .ok a => a
  | .error _ => []

/-- A Go index expression `xs[i]`, which panics out of range. -/
def index (xs : List Value) (i : Nat) : Except Panic Value :=
  match xs[i]? with
  | some v => .ok v
  | none => .error (.indexOutOfRange i xs.length)

/-- Lines 190 to 199: the effects of the function and the panic that ended it,
if any.  Only the first error is logged, and no error stops the function. -/
def handleMentionEvents (event : Value) : List Effect × Option Panic :=
  match Value.Array (event.Get "blocks") with
  | .error p => ([], some p)
  | .ok r =>
    let tr : List Effect :=
      match r with
      | .error e => [.stdlog ("logging error  " ++ e)]
      | .ok _ => []
    match index (sliceOf r) 0 with
    | .error p => (tr, some p)
    | .ok b0 =>
      match Value.Array (b0.Get "elements") with
      | .error p => (tr, some p)
      | .ok r1 =>
        match index (sliceOf r1) 0 with
        | .error p => (tr, some p)
        | .ok e0 =>
          match Value.Array (e0.Get "elements") with
          | .error p => (tr, some p)
          | .ok r2 =>
            match index (sliceOf r2) 1 with
            | .error p => (tr, some p)
            | .ok e1 =>
              match getJSONString e1 "text" with
              | .ok text => (tr ++ [.stdlog (text ++ " <nil>")], none)
              | .error e => (tr ++ [.stdlog (" " ++ e)], none)

/-- Lines 201 to 212: the effects of the function, the panic that ended it, if
any, and the error it returned.  The key it looks up is the empty string. -/
def processFurther (event : Value) (logger : List (String × String)) :
    List Effect × Option Panic × Option String :=
  match getJSONString event "" with
  | .error e => ([.log "error" (logger ++ [("error", e)]) "Error getting event type"], none, some e)
  | .ok eventType =>
    if eventType = "app_mention" then
      let r := handleMentionEvents event
      (.handleMentionEvents event :: r.1, r.2, none)
    else ([], none, none)

/-- Lines 93 to 188.  `logger` is the list of fields the request logger carries. -/
def handleSlackEvent (lib : Lib) (r : Request) : HResult :=
  let lc : List (String × String) := [("context", "event_handler")]
  let logger : List (String × String) :=
    match r.requestID with
    | some rid => lc ++ [("request_id", rid)]
    | none => lc
  let w : ResponseWriter := {}
  if r.method ≠ MethodPost then
    { w := (w.SetHeader "Allow" MethodPost).WriteHeader StatusMethodNotAllowed,
      trace := [.log "info" (logger ++ [("http_method", r.method)]) "unexpected HTTP method"] }
  else
    let t1 : List Effect := [.parseMediaType (Header.Get r.header "Content-Type")]
    match lib.ParseMediaType (Header.Get r.header "Content-Type") with
    | .error e =>
      { w := (w.SetHeader "Accept" "application/json; charset=utf-8").WriteHeader StatusBadRequest,
        trace := t1 ++ [.log "error" (logger ++ [("error", e)]) "failed to parse Content-Type"] }
    | .ok (mt, _) =>
      if mt ≠ "application/json" then
        { w := (w.SetHeader "Accept" "application/json; charset=utf-8").WriteHeader
            StatusUnsupportedMediaType,
          trace := t1 ++ [.log "error" (logger ++ [("content_type", mt)]) "content type was not JSON"] }
      else
        let t2 : List Effect := t1 ++ [.readBody maxBodySize]
        match ReadAllLimit r.body maxBodySize with
        | .error e =>
          { w := w.WriteHeader StatusInternalServerError,
            trace := t2 ++ [.log "error" (logger ++ [("error", e)]) "failed to read request body"] }
        | .ok body =>
          let t3 : List Effect := t2 ++ [.parseJSON body]
          match lib.ParseBytes body with
          | .error e =>
            { w := w.WriteHeader StatusUnprocessableEntity,
              trace := t3 ++
                [.log "error" (logger ++ [("error", e)]) "failed to unmarshal JSON document"] }
          | .ok document =>
            match requestValues document with
            | .error e =>
              { w := w.WriteHeader StatusUnprocessableEntity,
                trace := t3 ++
                  [.log "error" (logger ++ [("error", e)])
                    "failed to parse values from JSON document"] }
            | .ok (eventType, eventID, eventTimestamp) =>
              if eventType = "url_verification" then
                let u := urlVerification w document logger
                { u with trace := t3 ++ u.trace }
              else
                let logger2 := logger ++ [("event_type", eventType), ("event_id", eventID),
                  ("event_time", toString eventTimestamp)]
                match document.Get "event" with
                | none =>
                  { w := w.WriteHeader StatusUnprocessableEntity,
                    trace := t3 ++
                      [.log "error" (logger2 ++ [("error", "event field does not exist")])
                        "failed to unmarshal JSON document"] }
                | some event =>
                  let t4 : List Effect := t3 ++ [.log "info" (logger2 ++ [("", "")]) "",
                    .processFurther event]
                  match processFurther event logger2 with
                  | (tr, some p, _) => { w := w, trace := t4 ++ tr, panic := some p }
                  | (tr, none, some e) =>
                    { w := w,
                      trace := t4 ++ tr ++
                        [.log "error" (logger2 ++ [("error", e)]) "Failed to process the event"] }
                  | (tr, none, none) => { w := w, trace := t4 ++ tr }

/-! ## A reference instance of the library interface

`refLib` follows the two library functions on ASCII text: media types with
token or quoted-string parameters, and JSON documents whose strings use the
two-character escapes.  It is used to evaluate the handlers at concrete
requests; the general theorems do not depend on it. -/

/-- The characters of a MIME token. -/
def isTokenChar (c : Char) : Bool :=
  decide (0x20 < c.toNat) && decide (c.toNat < 0x7f) && !("()<>@,;:\\\"/[]?=".toList.contains c)

/-- The white space `strings.TrimSpace` removes from ASCII text. -/
def isSpaceChar (c : Char) : Bool := c = ' ' || c = '\t' || c = '\n' || c = '\r'

/-- Go `strings.TrimSpace` on ASCII text. -/
def trimSpace (cs : List Char) : List Char :=
  ((cs.dropWhile isSpaceChar).reverse.dropWhile isSpaceChar).reverse

/-- The function `checkMediaTypeDisposition` of package mime. -/
def checkMediaTypeDisposition (mt : List Char) : Except String Unit :=
  let typ := mt.takeWhile isTokenChar
  match typ, mt.dropWhile isTokenChar with
  | [], _ => .error "mime: no media type"
  | _ :: _, [] => .ok ()
  | _ :: _, c :: rest =>
    if c ≠ '/' then .error "mime: expected slash after first token"
    else
      match rest.takeWhile isTokenChar, rest.dropWhile isTokenChar with
      | [], _ => .error "mime: expected token after slash"
      | _ :: _, [] => .ok ()
      | _ :: _, _ :: _ => .error "mime: unexpected content after media subtype"

/-- The parameters that follow the media type: each is a semicolon, a token,
an equals sign and a token or a quoted string without escapes. -/
def mediaParams : Nat → List Char → Except String (List (String × String))
  | 0, _ => .error "mime: invalid media parameter"
  | fuel + 1, v =>
    match v.dropWhile isSpaceChar with
    | [] => .ok []
    | c :: rest =>
      if c ≠ ';' then .error "mime: invalid media parameter"
      else
        let r1 := rest.dropWhile isSpaceChar
        let key := r1.takeWhile isTokenChar
        match key, r1.dropWhile isTokenChar with
        | [], tail => if trimSpace tail = [] then .ok [] else .error "mime: invalid media parameter"
        | _ :: _, [] => .error "mime: invalid media parameter"
        | _ :: _, e :: r2 =>
          if e ≠ '=' then .error "mime: invalid media parameter"
          else
            match r2 with
            | [] => .error "mime: invalid media parameter"
            | q :: r3 =>
              if q = '"' then
                match r3.dropWhile (fun x => x != '"') with
                | [] => .error "mime: invalid media parameter"
                | _ :: r4 =>
                  match mediaParams fuel r4 with
                  | .error err => .error err
                  | .ok ps =>
                    .ok ((String.mk (key.map Char.toLower),
                      String.mk (r3.takeWhile (fun x => x != '"'))) :: ps)
              else
                match r2.takeWhile isTokenChar with
                | [] => .error "mime: invalid media parameter"
                | val =>
                  match mediaParams fuel (r2.dropWhile isTokenChar) with
                  | .error err => .error err
                  | .ok ps => .ok ((String.mk (key.map Char.toLower), String.mk val) :: ps)

/-- Reference `mime.ParseMediaType`. -/
def refParseMediaType (v : String) : Except String (String × List (String × String)) :=
  let cs := v.toList
  let base := cs.takeWhile (fun x => x != ';')
  let mediatype := trimSpace (base.map Char.toLower)
  match checkMediaTypeDisposition mediatype with
  | .error e => .error e
  | .ok () =>
    match mediaParams (cs.length + 1) (cs.dropWhile (fun x => x != ';')) with
    | .error e => .error e
    | .ok ps => .ok (String.mk mediatype, ps)

/-- The white space of fastjson: space, line feed, tab, carriage return. -/
def isWS (b : UInt8) : Bool := b = 0x20 || b = 0x0A || b = 0x09 || b = 0x0D

/-- The function `skipWS` of fastjson. -/
def skipWS : List UInt8 → List UInt8
  | [] => []
  | b :: bs => if isWS b then skipWS bs else b :: bs

/-- The character a two-character escape stands for. -/
def unescapeByte (b : UInt8) : Option Char :=
  if b = 34 then some '"'
  else if b = 92 then some '\\'
  else if b = 47 then some '/'
  else if b = 98 then some (Char.ofNat 8)
  else if b = 102 then some (Char.ofNat 12)
  else if b = 110 then some '\n'
  else if b = 114 then some '\r'
  else if b = 116 then some '\t'
  else none

/-- The text of a string up to its closing quote, and what follows it. -/
def parseRawString : List UInt8 → List Char → Option (String × List UInt8)
  | [], _ => none
  | b :: bs, acc =>
    if b = 34 then some (String.mk acc.reverse, bs)
    else if b = 92 then
      match bs with
      | [] => none
      | e :: rest =>
        match unescapeByte e with
        | some c => parseRawString rest (c :: acc)
        | none => none
    else if b < 128 then parseRawString bs (Char.ofNat b.toNat :: acc)
    else none

/-- The bytes fastjson takes for the text of a number. -/
def isNumberByte (b : UInt8) : Bool :=
  (decide (48 ≤ b) && decide (b ≤ 57)) || b = 46 || b = 45 || b = 101 || b = 69 || b = 43

/-- Splits off a literal such as true, false or null. -/
def stripLiteral (lit : List UInt8) (s : List UInt8) : Option (List UInt8) :=
  if s.take lit.length = lit then some (s.drop lit.length) else none

mutual

/-- The function `parseValue` of fastjson; the fuel bounds the number of values and members. -/
def parseValue : Nat → List UInt8 → Except String (Value × List UInt8)
  | 0, _ => .error "too big depth for the nested JSON"
  | fuel + 1, s =>
    match s with
    | [] => .error "cannot parse empty string"
    | b :: bs =>
      if b = 123 then
        match skipWS bs with
        | [] => .error "missing closing brace"
        | c :: cs =>
          if c = 125 then .ok (.object [], cs)
          else
            match parseObject fuel (c :: cs) with
            | .error e => .error e
            | .ok (kvs, tail) => .ok (.object kvs, tail)
      else if b = 91 then
        match skipWS bs with
        | [] => .error "missing closing bracket"
        | c :: cs =>
          if c = 93 then .ok (.array [], cs)
          else
            match parseArray fuel (c :: cs) with
            | .error e => .error e
            | .ok (vs, tail) => .ok (.array vs, tail)
      else if b = 34 then
        match parseRawString bs [] with
        | none => .error "cannot parse string"
        | some (str, tail) => .ok (.string str, tail)
      else if b = 116 then
        match stripLiteral [116, 114, 117, 101] s with
        | some tail => .ok (.vtrue, tail)
        | none => .error "unexpected value found"
      else if b = 102 then
        match stripLiteral [102, 97, 108, 115, 101] s with
        | some tail => .ok (.vfalse, tail)
        | none => .error "unexpected value found"
      else if b = 110 then
        match stripLiteral [110, 117, 108, 108] s with
        | some tail => .ok (.null, tail)
        | none => .error "unexpected value found"
      else
        match s.takeWhile isNumberByte with
        | [] => .error "cannot parse number"
        | ns => .ok (.number (String.mk (ns.map (fun x => Char.ofNat x.toNat))),
                  s.dropWhile isNumberByte)

/-- The member loop of `parseObject` of fastjson. -/
def parseObject : Nat → List UInt8 → Except String (List (String × Value) × List UInt8)
  | 0, _ => .error "too big depth for the nested JSON"
  | fuel + 1, s =>
    match skipWS s with
    | [] => .error "cannot find opening quote for object key"
    | q :: s1 =>
      if q ≠ 34 then .error "cannot find opening quote for object key"
      else
        match parseRawString s1 [] with
        | none => .error "cannot parse object key"
        | some (k, s2) =>
          match skipWS s2 with
          | [] => .error "missing colon after object key"
          | c :: s3 =>
            if c ≠ 58 then .error "missing colon after object key"
            else
              match parseValue fuel (skipWS s3) with
              | .error e => .error e
              | .ok (v, s4) =>
                match skipWS s4 with
                | [] => .error "unexpected end of object"
                | d :: s5 =>
                  if d = 44 then
                    match parseObject fuel s5 with
                    | .error e => .error e
                    | .ok (kvs, tail) => .ok ((k, v) :: kvs, tail)
                  else if d = 125 then .ok ([(k, v)], s5)
                  else .error "missing comma after object value"

/-- The element loop of `parseArray` of fastjson. -/
def parseArray : Nat → List UInt8 → Except String (List Value × List UInt8)
  | 0, _ => .error "too big depth for the nested JSON"
  | fuel + 1, s =>
    match parseValue fuel (skipWS s) with
    | .error e => .error e
    | .ok (v, s1) =>
      match skipWS s1 with
      | [] => .error "unexpected end of array"
      | d :: s2 =>
        if d = 44 then
          match parseArray fuel s2 with
          | .error e => .error e
          | .ok (vs, tail) => .ok (v :: vs, tail)
        else if d = 93 then .ok ([v], s2)
        else .error "missing comma after array value"

end

/-- Reference `fastjson.ParseBytes`: one value between optional white space. -/
def refParseBytes (b : List UInt8) : Except String Value :=
  let s := skipWS b
  match parseValue (s.length + 1) s with
  | .error e => .error e
  | .ok (v, tail) =>
    match skipWS tail with
    | [] => .ok v
    | _ :: _ => .error "unexpected tail"

/-- The reference instance of the library interface. -/
def refLib : Lib := { ParseMediaType := refParseMediaType, ParseBytes := refParseBytes }

/-- The bytes of an ASCII text. -/
def bytesOf (s : String) : List UInt8 := s.toList.map (fun c => UInt8.ofNat c.toNat)

/-- A POST request with the given headers and body. -/
def postRequest (header : List (String × String)) (body : List UInt8) : Request :=
  { method := "POST", header := header, body := { data := body } }

/-- A POST request with Content-Type application/json and the given body. -/
def jsonPost (body : List UInt8) : Request :=
  { method := "POST", header := [("Content-Type", "application/json")], body := { data := body } }

/-! ## server.go: the route of /slack/event -/

/-- The Slack settings of `config.S` that `runServer` hands to the middleware. -/
structure SlackConfig where
  RequestSecret : String
  RequestToken : String
  AppID : String
  TeamID : String

/-- The request header that carries the signature. -/
def signatureHeader : String := "X-Slack-Signature"

/-- The request header that carries the timestamp the signature covers. -/
def timestampHeader : String := "X-Slack-Request-Timestamp"

/-- Modelled from the spec: `slackSignatureMiddlewareFactory` is called by
`runServer` but defined in none of the source files.  Section 4.1 step 5: an
HMAC-style signature over the timestamp and the raw body, computed with the
shared secret, is compared with the signature a header supplies; a missing
header or a mismatch is answered with status 401 and the wrapped handler is
not run.  `hmac` is the keyed hash. -/
def slackSignatureMiddlewareFactory (hmac : String → String → List UInt8 → String)
    (cfg : SlackConfig) (next : Request → HResult) (r : Request) : HResult :=
  match r.header.lookup signatureHeader with
  | none =>
    { w := ({} : ResponseWriter).WriteHeader StatusUnauthorized,
      trace := [.log "error" [] "missing request signature"] }
  | some supplied =>
    if supplied = hmac cfg.RequestSecret (Header.Get r.header timestampHeader) r.body.data then
      next r
    else
      { w := ({} : ResponseWriter).WriteHeader StatusUnauthorized,
        trace := [.log "error" [] "request signature mismatch"] }

/-- Modelled from the spec: `chMiddlewareFactory` is called by `runServer` but
defined in none of the source files.  Section 4.1: a request-scoped correlation
identifier is attached to the request before the wrapped handler runs. -/
def chMiddlewareFactory (rid : String) (next : Request → HResult) (r : Request) : HResult :=
  next { r with requestID := some rid }

/-- The handler `runServer` installs for /slack/event (server.go, lines 54 to 62). -/
def slackHandler (lib : Lib) (hmac : String → String → List UInt8 → String)
    (cfg : SlackConfig) (rid : String) : Request → HResult :=
  chMiddlewareFactory rid (slackSignatureMiddlewareFactory hmac cfg (handleSlackEvent lib))

/-! ## server.go: runServer as a transition system -/

/-- The signals `runServer` subscribes to (line 20). -/
inductive Signal where
  | SIGINT
  | SIGTERM
  deriving DecidableEq, Repr

/-- The error `httpSrvr.Serve` returns; it is never nil. -/
inductive ServeErr where
  | ErrServerClosed
  | other (msg : String)
  deriving DecidableEq, Repr

/-- The goroutine of line 37: blocked on `signalCh`, or finished. -/
inductive WatcherPc where
  | waiting
  | done
  deriving DecidableEq, Repr

/-- The goroutine of line 87: not yet started, inside `Serve`, or finished
with `serveStop` closed. -/
inductive ServePc where
  | notStarted
  | serving
  | stopped
  deriving DecidableEq, Repr

/-- The goroutine of line 93: not yet started, blocked on `signalCh`, inside
`Shutdown`, or finished with `serverShutdown` closed. -/
inductive ShutdownPc where
  | notStarted
  | waiting
  | shuttingDown
  | done
  deriving DecidableEq, Repr

/-- The body of `runServer`: before `net.Listen`, returned the bind error,
blocked on `serverShutdown` (line 114), blocked on `serveStop` (line 115),
about to log the summary (line 118), about to return (line 123), returned. -/
inductive MainPc where
  | binding
  | bindFailed
  | waitShutdown
  | waitServe
  | logging
  | logged
  | returned
  deriving DecidableEq, Repr

/-- The state of a run of `runServer`, taken after `signal.Notify` and the start
of the goroutine of line 37. -/
structure State where
  /-- The content of `signalCh`, a channel of capacity 1. -/
  signalCh : Option Signal := none
  watcher : WatcherPc := .waiting
  main : MainPc := .binding
  serve : ServePc := .notStarted
  shutdown : ShutdownPc := .notStarted
  /-- The variables `serveErr` and `shutdownErr`; nil at first. -/
  serveErr : Option ServeErr := none
  shutdownErr : Option String := none
  /-- The number of calls of `httpSrvr.Shutdown` so far, and the deadline in
  seconds given to the last one. -/
  shutdownCalls : Nat := 0
  shutdownDeadline : Option Nat := none
  cancelCalls : Nat := 0
  /-- The "server shut down" lines emitted, with the two errors each one logs. -/
  summaries : List (Option ServeErr × Option String) := []
  listenerCloses : Nat := 0
  deriving DecidableEq, Repr

/-- The steps of the goroutines of `runServer` and of its environment. -/
inductive Action where
  /-- The OS delivers a signal: package os/signal sends it on `signalCh`
  without blocking, so it is dropped when the buffer is full. -/
  | deliver (sig : Signal)
  /-- Line 38: the first goroutine receives from `signalCh`, then cancels. -/
  | watcherRecv
  /-- Lines 69 to 111: `net.Listen` succeeds, the close of the listener is
  deferred, both goroutines are started. -/
  | bindOk
  /-- Lines 69 to 72: `net.Listen` fails and `runServer` returns the error. -/
  | bindFail
  /-- Lines 88 and 89: `Serve` returns, `serveErr` is set, `serveStop` closed. -/
  | serveReturn (e : ServeErr)
  /-- Lines 95 to 106: the second goroutine receives from `signalCh` and
  calls `Shutdown` with a deadline of 25 seconds. -/
  | shutdownRecv
  /-- Lines 106 to 110 and the deferred calls: `Shutdown` returns,
  `shutdownErr` is set, `serverShutdown` closed. -/
  | shutdownReturn (e : Option String)
  /-- Line 114. -/
  | mainRecvShutdown
  /-- Line 115. -/
  | mainRecvServe
  /-- Lines 118 to 121. -/
  | mainLog
  /-- Line 123 and the deferred calls. -/
  | mainReturn
  deriving DecidableEq, Repr

/-- The first state: nothing received, nothing started but the goroutine of line 37. -/
def init : State := {}

/-- The process ends when `runServer` returns: `main` exits, or dies in `Fatal`. -/
def State.alive (s : State) : Bool := s.main != .returned && s.main != .bindFailed

/-- One step of a goroutine or of the environment; `none` when the action is
not enabled in the state. -/
def step (s : State) (a : Action) : Option State :=
  if !s.alive then none
  else
    match a with
    | .deliver sig =>
      match s.signalCh with
      | none => some { s with signalCh := some sig }
      | some _ => some s
    | .watcherRecv =>
      if s.watcher = .waiting ∧ s.signalCh.isSome then
        some { s with signalCh := none, watcher := .done, cancelCalls := s.cancelCalls + 1 }
      else none
    | .bindOk =>
      if s.main = .binding then
        some { s with main := .waitShutdown, serve := .serving, shutdown := .waiting }
      else none
    | .bindFail =>
      if s.main = .binding then
        some { s with main := .bindFailed, cancelCalls := s.cancelCalls + 1 }
      else none
    | .serveReturn e =>
      if s.serve = .serving ∧ (e = .ErrServerClosed → 0 < s.shutdownCalls) then
        some { s with serve := .stopped, serveErr := some e }
      else none
    | .shutdownRecv =>
      if s.shutdown = .waiting ∧ s.signalCh.isSome then
        some { s with signalCh := none, shutdown := .shuttingDown,
                      shutdownCalls := s.shutdownCalls + 1, shutdownDeadline := some 25 }
      else none
    | .shutdownReturn e =>
      if s.shutdown = .shuttingDown then
        some { s with shutdown := .done, shutdownErr := e, cancelCalls := s.cancelCalls + 1 }
      else none
    | .mainRecvShutdown =>
      if s.main = .waitShutdown ∧ s.shutdown = .done then some { s with main := .waitServe }
      else none
    | .mainRecvServe =>
      if s.main = .waitServe ∧ s.serve = .stopped then some { s with main := .logging }
      else none
    | .mainLog =>
      if s.main = .logging then
        some { s with main := .logged, summaries := s.summaries ++ [(s.serveErr, s.shutdownErr)] }
      else none
    | .mainReturn =>
      if s.main = .logged then
        some { s with main := .returned, listenerCloses := s.listenerCloses + 1,
                      cancelCalls := s.cancelCalls + 1 }
      else none

/-- Runs a schedule; `none` when one of its actions is not enabled. -/
def run (s : State) : List Action → Option State
  | [] => some s
  | a :: as =>
    match step s a with
    | some s1 => run s1 as
    | none => none

/-- Whether the action is a signal delivered by the environment. -/
def Action.isDeliver : Action → Bool
  | .deliver _ => true
  | _ => false

/-! ## Predicates and inputs used in the statements -/

/-- The text of an integer: an optional minus sign, then one or more digits. -/
def isIntegerText (s : List Char) : Bool :=
  match s with
  | [] => false
  | c :: cs => if c = '-' then (!cs.isEmpty && cs.all isDigit) else (c :: cs).all isDigit

/-- Whether the value is a number whose text is an integer. -/
def Value.isInteger : Value → Bool
  | .number raw => isIntegerText raw.toList
  | _ => false

/-! ### Well-formed JSON text (RFC 8259)

A recogniser for the grammar of RFC 8259 over bytes: white space, the three
literals, numbers, strings with their escapes, arrays and objects.  Bytes from
0x80 up are taken as part of a string without a check of their UTF-8 form. -/

def isDigitByte (b : UInt8) : Bool := decide (48 ≤ b) && decide (b ≤ 57)

def isHexByte (b : UInt8) : Bool :=
  isDigitByte b || (decide (65 ≤ b) && decide (b ≤ 70)) || (decide (97 ≤ b) && decide (b ≤ 102))

/-- The optional fraction of a number: a point and one or more digits. -/
def jsonFrac (s : List UInt8) : Option (List UInt8) :=
  match s with
  | [] => some []
  | b :: r =>
    if b = 46 then
      match r with
      | [] => none
      | d :: _ => if isDigitByte d then some (r.dropWhile isDigitByte) else none
    else some (b :: r)

/-- One or more digits. -/
def jsonDigits (s : List UInt8) : Option (List UInt8) :=
  match s with
  | [] => none
  | d :: _ => if isDigitByte d then some (s.dropWhile isDigitByte) else none

/-- The optional exponent of a number: e or E, an optional sign, one or more digits. -/
def jsonExp (s : List UInt8) : Option (List UInt8) :=
  match s with
  | [] => some []
  | b :: r =>
    if b = 101 ∨ b = 69 then
      match r with
      | [] => none
      | c :: r2 => if c = 43 ∨ c = 45 then jsonDigits r2 else jsonDigits (c :: r2)
    else some (b :: r)

/-- A number: an optional minus, then 0 or a digit run without a leading zero,
then the optional fraction and exponent.  The result is what follows the number. -/
def jsonNumber (s : List UInt8) : Option (List UInt8) :=
  let s1 : List UInt8 :=
    match s with
    | [] => []
    | b :: r => if b = 45 then r else b :: r
  match s1 with
  | [] => none
  | d :: r =>
    if d = 48 then
      match jsonFrac r with
      | some r2 => jsonExp r2
      | none => none
    else if isDigitByte d then
      match jsonFrac (r.dropWhile isDigitByte) with
      | some r2 => jsonExp r2
      | none => none
    else none

/-- A string after its opening quote: no control characters, and a backslash
only in one of the escapes of the grammar.  The result is what follows the
closing quote. -/
def jsonString : Nat → List UInt8 → Option (List UInt8)
  | 0, _ => none
  | _ + 1, [] => none
  | fuel + 1, b :: bs =>
    if b = 34 then some bs
    else if b = 92 then
      match bs with
      | [] => none
      | e :: rest =>
        if e = 34 ∨ e = 92 ∨ e = 47 ∨ e = 98 ∨ e = 102 ∨ e = 110 ∨ e = 114 ∨ e = 116 then
          jsonString fuel rest
        else if e = 117 then
          if (rest.take 4).length = 4 ∧ (rest.take 4).all isHexByte then
            jsonString fuel (rest.drop 4)
          else none
        else none
    else if b < 32 then none
    else jsonString fuel bs

mutual

/-- A value; the result is what follows it.  The fuel bounds the number of
values and members, each of which takes at least one byte. -/
def jsonValue : Nat → List UInt8 → Option (List UInt8)
  | 0, _ => none
  | fuel + 1, s =>
    match s with
    | [] => none
    | b :: bs =>
      if b = 123 then
        match skipWS bs with
        | [] => none
        | c :: cs => if c = 125 then some cs else jsonMembers fuel (c :: cs)
      else if b = 91 then
        match skipWS bs with
        | [] => none
        | c :: cs => if c = 93 then some cs else jsonElements fuel (c :: cs)
      else if b = 34 then jsonString (bs.length + 1) bs
      else if b = 116 then stripLiteral [116, 114, 117, 101] s
      else if b = 102 then stripLiteral [102, 97, 108, 115, 101] s
      else if b = 110 then stripLiteral [110, 117, 108, 108] s
      else jsonNumber s

/-- The members of an object up to its closing brace. -/
def jsonMembers : Nat → List UInt8 → Option (List UInt8)
  | 0, _ => none
  | fuel + 1, s =>
    match skipWS s with
    | [] => none
    | q :: s1 =>
      if q ≠ 34 then none
      else
        match jsonString (s1.length + 1) s1 with
        | none => none
        | some s2 =>
          match skipWS s2 with
          | [] => none
          | c :: s3 =>
            if c ≠ 58 then none
            else
              match jsonValue fuel (skipWS s3) with
              | none => none
              | some s4 =>
                match skipWS s4 with
                | [] => none
                | d :: s5 =>
                  if d = 44 then jsonMembers fuel s5
                  else if d = 125 then some s5
                  else none

/-- The elements of an array up to its closing bracket. -/
def jsonElements : Nat → List UInt8 → Option (List UInt8)
  | 0, _ => none
  | fuel + 1, s =>
    match jsonValue fuel (skipWS s) with
    | none => none
    | some s1 =>
      match skipWS s1 with
      | [] => none
      | d :: s2 =>
        if d = 44 then jsonElements fuel s2
        else if d = 93 then some s2
        else none

end

/-- Whether the bytes are a well-formed JSON document: one value between
optional white space. -/
def wellFormedJSON (b : List UInt8) : Bool :=
  let s := skipWS b
  match jsonValue (s.length + 1) s with
  | some tail => (skipWS tail).isEmpty
  | none => false

/-- A url_verification body with a member whose value 1.2.3 is not a JSON number. -/
def malformedNumberText : String :=
  "\x7b\"type\":\"url_verification\",\"challenge\":\"abc\",\"n\":1.2.3\x7d"

/-- The same body with the number 1.23 in place of 1.2.3. -/
def wellFormedNumberText : String :=
  "\x7b\"type\":\"url_verification\",\"challenge\":\"abc\",\"n\":1.23\x7d"

/-- The body of a url_verification request, as the Slack documentation shows it. -/
def verificationText : String :=
  "\x7b\"token\":\"Jhj5dZrVaK7ZwHHjRyZWjbDl\",\"challenge\":\"3eZbrw1aBm2rZgRNFdxV2595E9CY3gmdALWMmHkvFXO7tYXAYM8P\",\"type\":\"url_verification\"\x7d"

/-- The document `verificationText` spells. -/
def verificationDoc : Value :=
  .object [("token", .string "Jhj5dZrVaK7ZwHHjRyZWjbDl"),
    ("challenge", .string "3eZbrw1aBm2rZgRNFdxV2595E9CY3gmdALWMmHkvFXO7tYXAYM8P"),
    ("type", .string "url_verification")]

/-- A url_verification request whose JSON object follows 2 MiB of spaces. -/
def paddedVerification : Request :=
  jsonPost (List.replicate maxBodySize 0x20 ++ bytesOf verificationText)

/-- A url_verification request whose body stream ends in an error. -/
def brokenVerification : Request :=
  { method := "POST", header := [("Content-Type", "application/json")],
    body := { data := bytesOf verificationText, err := some "unexpected EOF" } }

/-- A GET request that carries a Content-Type and a JSON body. -/
def getVerification : Request :=
  { method := "GET", header := [("Content-Type", "application/json")],
    body := { data := bytesOf verificationText } }

/-- An event_callback whose event object has the given text. -/
def callbackText (event : String) : String :=
  "\x7b\"type\":\"event_callback\",\"event_id\":\"Ev08MFMKH6\",\"event_time\":1234567890,\"event\":" ++
    event ++ "\x7d"

/-- An event_callback without "event_id". -/
def callbackWithoutID : String :=
  "\x7b\"type\":\"event_callback\",\"event_time\":1234567890,\"event\":\x7b\"type\":\"app_mention\"\x7d\x7d"

/-- The document `callbackWithoutID` spells. -/
def callbackWithoutIDDoc : Value :=
  .object [("type", .string "event_callback"), ("event_time", .number "1234567890"),
    ("event", .object [("type", .string "app_mention")])]

/-- A request whose signature header does not carry the keyed hash. -/
def forgedRequest : Request :=
  { method := "POST",
    header := [("Content-Type", "application/json"), ("X-Slack-Request-Timestamp", "1531420618"),
      ("X-Slack-Signature", "v0=a2114d57b48eac39b9ad189dd8316235a7b4a8d21a10bd27519666489c69b503")],
    body := { data := bytesOf verificationText } }

/-- What holds in every state of a run of `runServer`: the bookkeeping of the
`Shutdown` calls follows the second goroutine, and the summary line, the
listener and the two errors follow the position of the function body. -/
def Inv (s : State) : Prop :=
  (match s.shutdown with
    | .notStarted => s.shutdownCalls = 0 ∧ s.shutdownDeadline = none
    | .waiting => s.shutdownCalls = 0 ∧ s.shutdownDeadline = none
    | .shuttingDown => s.shutdownCalls = 1 ∧ s.shutdownDeadline = some 25
    | .done => s.shutdownCalls = 1 ∧ s.shutdownDeadline = some 25) ∧
  (match s.main with
    | .binding =>
      s.summaries = [] ∧ s.listenerCloses = 0 ∧ s.shutdown = .notStarted ∧ s.serve = .notStarted
    | .bindFailed =>
      s.summaries = [] ∧ s.listenerCloses = 0 ∧ s.shutdown = .notStarted ∧ s.serve = .notStarted
    | .waitShutdown => s.summaries = [] ∧ s.listenerCloses = 0
    | .waitServe => s.summaries = [] ∧ s.listenerCloses = 0 ∧ s.shutdown = .done
    | .logging =>
      s.summaries = [] ∧ s.listenerCloses = 0 ∧ s.shutdown = .done ∧ s.serve = .stopped
    | .logged =>
      s.summaries = [(s.serveErr, s.shutdownErr)] ∧ s.listenerCloses = 0 ∧
        s.shutdown = .done ∧ s.serve = .stopped
    | .returned =>
      s.summaries = [(s.serveErr, s.shutdownErr)] ∧ s.listenerCloses = 1 ∧
        s.shutdown = .done ∧ s.serve = .stopped)

/-- A schedule in which a second and a third signal arrive after `Shutdown` was called. -/
def secondSignalSchedule : List Action :=
  [.bindOk, .deliver .SIGTERM, .shutdownRecv, .deliver .SIGINT, .watcherRecv, .deliver .SIGINT]

/-- The state `secondSignalSchedule` leads to. -/
def secondSignalState : State :=
  { signalCh := some .SIGINT, watcher := .done, main := .waitShutdown, serve := .serving,
    shutdown := .shuttingDown, shutdownCalls := 1, shutdownDeadline := some 25, cancelCalls := 1 }

/-- A schedule in which `Serve` returns an unexpected error and no signal arrives. -/
def serveFailsSchedule : List Action :=
  [.bindOk, .serveReturn (.other "accept tcp: too many open files")]

/-- The state `serveFailsSchedule` leads to. -/
def serveFailsState : State :=
  { main := .waitShutdown, serve := .stopped, shutdown := .waiting,
    serveErr := some (.other "accept tcp: too many open files") }

/-- A schedule in which the first goroutine takes the signal. -/
def signalLostSchedule : List Action := [.bindOk, .deliver .SIGTERM, .watcherRecv]

/-- The state `signalLostSchedule` leads to. -/
def signalLostState : State :=
  { watcher := .done, main := .waitShutdown, serve := .serving, shutdown := .waiting,
    cancelCalls := 1 }

/-- A complete run: bind, signal, `Shutdown`, `Serve` returns, both channels
closed, summary, return. -/
def completeSchedule : List Action :=
  [.bindOk, .deliver .SIGINT, .shutdownRecv, .serveReturn .ErrServerClosed,
    .shutdownReturn none, .mainRecvShutdown, .mainRecvServe, .mainLog, .mainReturn]

/-- The state `completeSchedule` leads to. -/
def completeState : State :=
  { main := .returned, serve := .stopped, shutdown := .done,
    serveErr := some .ErrServerClosed, shutdownErr := none,
    shutdownCalls := 1, shutdownDeadline := some 25, cancelCalls := 2,
    summaries := [(some .ErrServerClosed, none)], listenerCloses := 1 }

/-- A keyed hash used to instantiate the signature check at a concrete request. -/
def refHmac (secret timestamp : String) (body : List UInt8) : String :=
  "v0=" ++ secret ++ ":" ++ timestamp ++ ":" ++ toString body.length

/-- The settings used to instantiate the signature check. -/
def refConfig : SlackConfig :=
  { RequestSecret := "8f742231b10e8888abcd99yyyzzz85a5", RequestToken := "", AppID := "", TeamID := "" }

/-! ## Accessors -/

theorem getJSONString_ok (doc : Value) (key s : String) :
    getJSONString doc key = .ok s ↔ doc.Get key = some (.string s) := by
  unfold getJSONString
  cases hg : doc.Get key with
  | none => simp
  | some v => cases v <;> simp [Value.StringBytes]

theorem getJSONInt64_ok (doc : Value) (key : String) (n : Int)
    (h : getJSONInt64 doc key = .ok n) : ∃ v, doc.Get key = some v ∧ v.Int64 = .ok n := by
  unfold getJSONInt64 at h
  cases hg : doc.Get key with
  | none => simp [hg] at h
  | some v =>
    simp only [hg] at h
    cases hi : v.Int64 with
    | error e => simp [hi] at h
    | ok m =>
      simp only [hi, Except.ok.injEq] at h
      exact ⟨v, rfl, by rw [hi, h]⟩

theorem parseDigitsAux_all (cs : List Char) : ∀ (acc n : Nat),
    parseDigitsAux acc cs = some n → cs.all isDigit = true := by
  induction cs with
  | nil => intro _ _ _; rfl
  | cons c cs ih =>
    intro acc n h
    unfold parseDigitsAux at h
    by_cases hc : isDigit c = true
    · simp only [hc, if_true] at h
      simp only [List.all_cons, hc, Bool.true_and]
      exact ih _ _ h
    · simp [hc] at h

theorem parseDigits_all (cs : List Char) (n : Nat) (h : parseDigits cs = some n) :
    cs.all isDigit = true ∧ cs ≠ [] := by
  cases cs with
  | nil => simp [parseDigits] at h
  | cons c cs => exact ⟨parseDigitsAux_all _ _ _ h, by simp⟩

theorem digitLoop_all (cs : List Char) : ∀ (i : Nat) (d : Int) (i2 : Nat) (d2 : Int),
    digitLoop cs i d = .stopped i2 d2 [] → cs.all isDigit = true := by
  induction cs with
  | nil => intro _ _ _ _ _; rfl
  | cons c cs ih =>
    intro i d i2 d2 h
    unfold digitLoop at h
    by_cases hc : isDigit c = true
    · simp only [hc, if_true] at h
      simp only [List.all_cons, hc, Bool.true_and]
      split at h
      · cases h
      · exact ih _ _ _ _ h
    · simp [hc] at h

/-- A text that `ParseInt64BestEffort` does not map to 0 is an integer text. -/
theorem ParseInt64BestEffort_ne_zero (s : List Char) (h : ParseInt64BestEffort s ≠ 0) :
    isIntegerText s = true := by
  cases s with
  | nil => simp [ParseInt64BestEffort] at h
  | cons c cs =>
    unfold ParseInt64BestEffort at h
    by_cases hc : c = '-'
    · subst hc
      simp only [decide_True, if_true, Bool.true_and] at h
      cases cs with
      | nil => simp at h
      | cons c2 cs2 =>
        simp only [List.isEmpty_cons, Bool.false_eq_true, if_false] at h
        have hall : (c2 :: cs2).all isDigit = true := by
          split at h
          · unfold strconvParseInt at h
            simp only [if_true] at h
            split at h
            · rename_i dd hdd
              split at hdd
              · rename_i n hn
                exact (parseDigits_all _ _ hn).1
              · cases hdd
            · exact absurd rfl h
          · rename_i i d rest hd
            split at h
            · exact absurd rfl h
            · split at h
              · exact absurd rfl h
              · have hr : rest = [] := by cases rest <;> simp_all
                subst hr
                exact digitLoop_all _ _ _ _ _ hd
        simp only [isIntegerText, if_true, List.isEmpty_cons, Bool.not_false, Bool.true_and]
        exact hall
    · have hm : decide (c = '-') = false := by simp [hc]
      simp only [hm, Bool.false_and, Bool.false_eq_true, if_false] at h
      have hall : (c :: cs).all isDigit = true := by
        split at h
        · rename_i hd
          have hplus : c ≠ '+' := by
            intro hp
            subst hp
            simp [digitLoop, isDigit] at hd
          unfold strconvParseInt at h
          simp only [hc, hplus, if_false] at h
          split at h
          · rename_i dd hdd
            split at hdd
            · rename_i n hn
              exact (parseDigits_all _ _ hn).1
            · cases hdd
          · exact absurd rfl h
        · rename_i i d rest hd
          split at h
          · exact absurd rfl h
          · split at h
            · exact absurd rfl h
            · have hr : rest = [] := by cases rest <;> simp_all
              subst hr
              exact digitLoop_all _ _ _ _ _ hd
      simp only [isIntegerText, hc, if_false]
      exact hall

/-- The method `Int64` succeeds only on numbers whose text is an integer. -/
theorem Int64_ok_isInteger (v : Value) (n : Int) (h : v.Int64 = .ok n) : v.isInteger = true := by
  cases v with
  | number raw =>
    unfold Value.Int64 at h
    simp only at h
    split at h
    · cases h
    · rename_i hn
      simp only [Value.isInteger]
      by_cases h0 : raw = "0"
      · subst h0; decide
      · have : ParseInt64BestEffort raw.toList ≠ 0 := fun hz => hn ⟨hz, h0⟩
        exact ParseInt64BestEffort_ne_zero _ this
  | _ => simp [Value.Int64] at h

theorem requestValues_ok (doc : Value) (t a b : String) (c : Int)
    (ht : doc.Get "type" = some (.string t)) (hne : t ≠ "url_verification")
    (h : requestValues doc = .ok (a, b, c)) :
    a = t ∧ doc.Get "event_id" = some (.string b) ∧
      ∃ v, doc.Get "event_time" = some v ∧ v.Int64 = .ok c := by
  unfold requestValues at h
  rw [(getJSONString_ok doc "type" t).2 ht] at h
  simp only [hne, if_false] at h
  cases hid : getJSONString doc "event_id" with
  | error e => simp [hid] at h
  | ok eid =>
    simp only [hid] at h
    cases hti : getJSONInt64 doc "event_time" with
    | error e => simp [hti] at h
    | ok n =>
      simp only [hti, Except.ok.injEq, Prod.mk.injEq] at h
      obtain ⟨h1, h2, h3⟩ := h
      subst h1 h2 h3
      exact ⟨rfl, (getJSONString_ok _ _ _).1 hid, getJSONInt64_ok _ _ _ hti⟩

/-! ## Effects of the dispatch -/

theorem handleMentionEvents_trace (event : Value) :
    ∀ x ∈ (handleMentionEvents event).1, ∃ l, x = Effect.stdlog l := by
  unfold handleMentionEvents
  repeat' split
  all_goals simp

theorem processFurther_trace (event : Value) (lg : List (String × String)) :
    ∀ x ∈ (processFurther event lg).1,
      (∃ l, x = Effect.stdlog l) ∨ (∃ a b c, x = Effect.log a b c) ∨
        x = Effect.handleMentionEvents event := by
  unfold processFurther
  split
  · simp
  · split
    · intro x hx
      simp only [List.mem_cons] at hx
      rcases hx with hx | hx
      · exact Or.inr (Or.inr hx)
      · exact Or.inl (handleMentionEvents_trace event x hx)
    · simp

theorem processFurther_no_parseJSON (event : Value) (lg : List (String × String))
    (tr : List Effect) (p : Option Panic) (e : Option String)
    (h : processFurther event lg = (tr, p, e)) (x : List UInt8) : Effect.parseJSON x ∉ tr := by
  intro hx
  have := processFurther_trace event lg (Effect.parseJSON x) (by rw [h]; exact hx)
  rcases this with ⟨l, hl⟩ | ⟨a, b, c, hl⟩ | hl <;> cases hl

/-! ## The admission gate -/

theorem handleSlackEvent_not_post (lib : Lib) (r : Request) (h : r.method ≠ "POST") :
    handleSlackEvent lib r =
      { w := { header := [("Allow", "POST")], status := some 405,
               sentHeader := [("Allow", "POST")], body := "" },
        trace := [.log "info"
          ((match r.requestID with
            | some rid => [("context", "event_handler"), ("request_id", rid)]
            | none => [("context", "event_handler")]) ++ [("http_method", r.method)])
          "unexpected HTTP method"],
        panic := none } := by
  unfold handleSlackEvent
  have h2 : r.method ≠ MethodPost := h
  simp only [h2, ne_eq, not_false_eq_true, if_true]
  cases r.requestID <;> rfl

theorem handleSlackEvent_parse_error (lib : Lib) (r : Request) (h : r.method = "POST")
    (ps : List (String × String))
    (he : lib.ParseMediaType (Header.Get r.header "Content-Type") = .ok ("application/json", ps))
    (bs : List UInt8) (hb : ReadAllLimit r.body maxBodySize = .ok bs)
    (e : String) (hp : lib.ParseBytes bs = .error e) :
    (handleSlackEvent lib r).response = some { status := 422, header := [], body := "" } := by
  have hm : ¬ (r.method ≠ MethodPost) := by simp [h, MethodPost]
  unfold handleSlackEvent
  simp only [hm, if_false, he, ne_eq, not_true_eq_false, hb, hp]
  rfl

theorem ReadAllLimit_ok (b : Body) (bs : List UInt8) (h : ReadAllLimit b maxBodySize = .ok bs) :
    bs = b.data.take (min b.data.length 2097152) := by
  unfold ReadAllLimit at h
  have ht : List.take (min b.data.length 2097152) b.data = List.take 2097152 b.data := by
    rcases Nat.le_total b.data.length 2097152 with hl | hl
    · rw [Nat.min_eq_left hl, List.take_of_length_le hl, List.take_of_length_le (le_refl _)]
    · rw [Nat.min_eq_right hl]
  rw [ht]
  have hmax : maxBodySize = 2097152 := by decide
  rw [hmax] at h
  split at h
  · split at h
    · cases h
    · cases h; rfl
  · cases h; rfl

/-! ## The reference parser on padded text -/

theorem skipWS_replicate_append (n : Nat) (s : List UInt8) :
    skipWS (List.replicate n 0x20 ++ s) = skipWS s := by
  induction n with
  | zero => rfl
  | succ n ih =>
    rw [List.replicate_succ, List.cons_append, skipWS]
    simp only [isWS, decide_True, Bool.true_or, if_true]
    exact ih

theorem refLib_ParseBytes_padded (n : Nat) (s : List UInt8) :
    refLib.ParseBytes (List.replicate n 0x20 ++ s) = refLib.ParseBytes s := by
  show refParseBytes _ = refParseBytes _
  unfold refParseBytes
  rw [skipWS_replicate_append]

theorem refLib_ParseBytes_spaces (n : Nat) :
    refLib.ParseBytes (List.replicate n 0x20) = .error "cannot parse empty string" := by
  have h := refLib_ParseBytes_padded n []
  rw [List.append_nil] at h
  rw [h]
  rfl

set_option maxRecDepth 10000 in
theorem refLib_ParseBytes_verificationText :
    refLib.ParseBytes (bytesOf verificationText) = .ok verificationDoc := rfl

theorem ReadAllLimit_paddedVerification :
    ReadAllLimit paddedVerification.body maxBodySize = .ok (List.replicate maxBodySize 0x20) := by
  rw [show paddedVerification.body =
    { data := List.replicate maxBodySize 0x20 ++ bytesOf verificationText } from rfl]
  unfold ReadAllLimit
  simp only
  rw [List.take_left' (List.length_replicate _ _)]

/-! ## Claims on the handlers -/

/-- Claim C1, as amended: a POST request with media type application/json whose
body is read to its end without error, is at most 2097152 bytes long and is a
JSON object with "type" equal to "url_verification" and a string member
"challenge" is answered with status 200, Content-Type plain/text and the
challenge as the body.  No other member of the object is looked at, so
event_id, event_time and event are not required. -/
theorem handleSlackEvent_url_verification (lib : Lib) (r : Request) (h : r.method = "POST")
    (ps : List (String × String))
    (he : lib.ParseMediaType (Header.Get r.header "Content-Type") = .ok ("application/json", ps))
    (hlen : r.body.data.length ≤ 2097152) (herr : r.body.err = none)
    (kvs : List (String × Value)) (hd : lib.ParseBytes r.body.data = .ok (.object kvs))
    (ht : Object.Get kvs "type" = some (.string "url_verification"))
    (c : String) (hc : Object.Get kvs "challenge" = some (.string c)) :
    (handleSlackEvent lib r).response =
      some { status := 200, header := [("Content-Type", "plain/text")], body := c } := by
  have hm : ¬ (r.method ≠ MethodPost) := by simp [h, MethodPost]
  have hb : ReadAllLimit r.body maxBodySize = .ok r.body.data := by
    unfold ReadAllLimit
    rw [herr]
    simp only
    rw [List.take_of_length_le (by simpa [maxBodySize] using hlen)]
  have hrv : requestValues (.object kvs) = .ok ("url_verification", "", 0) := by
    unfold requestValues
    rw [(getJSONString_ok (.object kvs) "type" "url_verification").2 ht]
    simp
  have hch : getJSONString (.object kvs) "challenge" = .ok c :=
    (getJSONString_ok (.object kvs) "challenge" c).2 hc
  unfold handleSlackEvent urlVerification
  simp only [hm, if_false, he, ne_eq, not_true_eq_false, hb, hd, hrv, if_true, hch]
  simp [HResult.response, ResponseWriter.finish, ResponseWriter.Write, ResponseWriter.WriteHeader,
    ResponseWriter.SetHeader, Header.Set]

set_option maxRecDepth 10000 in
/-- The amended claim C1 at the verification request of the Slack documentation. -/
theorem handleSlackEvent_url_verification_witness :
    (jsonPost (bytesOf verificationText)).method = "POST"
    ∧ refLib.ParseMediaType (Header.Get (jsonPost (bytesOf verificationText)).header "Content-Type")
        = .ok ("application/json", [])
    ∧ (jsonPost (bytesOf verificationText)).body.data.length ≤ 2097152
    ∧ (jsonPost (bytesOf verificationText)).body.err = none
    ∧ refLib.ParseBytes (jsonPost (bytesOf verificationText)).body.data = .ok verificationDoc
    ∧ (handleSlackEvent refLib (jsonPost (bytesOf verificationText))).response =
        some { status := 200, header := [("Content-Type", "plain/text")],
               body := "3eZbrw1aBm2rZgRNFdxV2595E9CY3gmdALWMmHkvFXO7tYXAYM8P" } :=
  ⟨rfl, rfl, by decide, rfl, rfl,
    handleSlackEvent_url_verification refLib (jsonPost (bytesOf verificationText)) rfl [] rfl
      (by decide) rfl
      [("token", .string "Jhj5dZrVaK7ZwHHjRyZWjbDl"),
       ("challenge", .string "3eZbrw1aBm2rZgRNFdxV2595E9CY3gmdALWMmHkvFXO7tYXAYM8P"),
       ("type", .string "url_verification")] rfl rfl _ rfl⟩

set_option maxRecDepth 10000 in
/-- Claim C1 fails as stated.  `paddedVerification` is a POST with Content-Type
application/json whose body is a JSON object with "type" equal to
"url_verification" and a string "challenge", after 2 MiB of white space: only
the first 2097152 bytes are read, they do not parse, and the status is 422.
`brokenVerification` carries the same object on a stream that ends in a read
error: the status is 500. -/
theorem handleSlackEvent_url_verification_counterexample :
    (paddedVerification.method = "POST"
      ∧ refLib.ParseMediaType (Header.Get paddedVerification.header "Content-Type") =
          .ok ("application/json", [])
      ∧ paddedVerification.body.err = none
      ∧ refLib.ParseBytes paddedVerification.body.data = .ok verificationDoc
      ∧ verificationDoc.Get "type" = some (.string "url_verification")
      ∧ verificationDoc.Get "challenge" =
          some (.string "3eZbrw1aBm2rZgRNFdxV2595E9CY3gmdALWMmHkvFXO7tYXAYM8P")
      ∧ (handleSlackEvent refLib paddedVerification).response =
          some { status := 422, header := [], body := "" })
    ∧ (brokenVerification.method = "POST"
      ∧ refLib.ParseMediaType (Header.Get brokenVerification.header "Content-Type") =
          .ok ("application/json", [])
      ∧ refLib.ParseBytes brokenVerification.body.data = .ok verificationDoc
      ∧ (handleSlackEvent refLib brokenVerification).response =
          some { status := 500, header := [], body := "" }) := by
  refine ⟨⟨rfl, rfl, rfl, ?_, rfl, rfl, ?_⟩, rfl, rfl, rfl, rfl⟩
  · rw [show paddedVerification.body.data =
      List.replicate maxBodySize 0x20 ++ bytesOf verificationText from rfl,
      refLib_ParseBytes_padded]
    exact refLib_ParseBytes_verificationText
  · exact handleSlackEvent_parse_error refLib paddedVerification rfl [] rfl _
      ReadAllLimit_paddedVerification _ (refLib_ParseBytes_spaces maxBodySize)

/-- Claim C2: a request whose method is not POST is answered with status 405 and
the header Allow: POST.  Nothing but the method (and the request id that is
logged) bears on the result: the run performs no effect besides one log line,
and any other request with the same method gets the same result, whatever its
headers and body and whatever the media type and JSON parsers do. -/
theorem handleSlackEvent_method_not_allowed (lib : Lib) (r : Request) (h : r.method ≠ "POST") :
    (handleSlackEvent lib r).response =
      some { status := 405, header := [("Allow", "POST")], body := "" }
    ∧ (∀ x ∈ (handleSlackEvent lib r).trace, ∃ f, x = Effect.log "info" f "unexpected HTTP method")
    ∧ ∀ (lib2 : Lib) (r2 : Request), r2.method = r.method → r2.requestID = r.requestID →
        handleSlackEvent lib2 r2 = handleSlackEvent lib r := by
  refine ⟨?_, ?_, ?_⟩
  · rw [handleSlackEvent_not_post lib r h]; rfl
  · rw [handleSlackEvent_not_post lib r h]
    intro x hx
    simp only [List.mem_singleton] at hx
    exact ⟨_, hx⟩
  · intro lib2 r2 hm hid
    rw [handleSlackEvent_not_post lib r h, handleSlackEvent_not_post lib2 r2 (hm ▸ h), hm, hid]

set_option maxRecDepth 10000 in
/-- Claim C2 at a GET request that carries a JSON body. -/
theorem handleSlackEvent_method_not_allowed_witness :
    getVerification.method ≠ "POST"
    ∧ (handleSlackEvent refLib getVerification).response =
        some { status := 405, header := [("Allow", "POST")], body := "" } :=
  ⟨by decide, (handleSlackEvent_method_not_allowed refLib getVerification (by decide)).1⟩

/-- Claim C3: for a POST request, a Content-Type that `mime.ParseMediaType`
rejects gives status 400, one that parses to a media type other than
application/json gives status 415, and in both cases the response carries
Accept: application/json; charset=utf-8 and the body is not read; a
Content-Type that parses to application/json, with any parameters, passes this
step: the body is read and the status is neither 400 nor 415. -/
theorem handleSlackEvent_content_type (lib : Lib) (r : Request) (h : r.method = "POST") :
    (∀ e, lib.ParseMediaType (Header.Get r.header "Content-Type") = .error e →
      (handleSlackEvent lib r).response =
        some { status := 400, header := [("Accept", "application/json; charset=utf-8")],
               body := "" }
      ∧ ∀ n, Effect.readBody n ∉ (handleSlackEvent lib r).trace)
    ∧ (∀ mt ps, lib.ParseMediaType (Header.Get r.header "Content-Type") = .ok (mt, ps) →
      mt ≠ "application/json" →
      (handleSlackEvent lib r).response =
        some { status := 415, header := [("Accept", "application/json; charset=utf-8")],
               body := "" }
      ∧ ∀ n, Effect.readBody n ∉ (handleSlackEvent lib r).trace)
    ∧ (∀ ps, lib.ParseMediaType (Header.Get r.header "Content-Type") =
        .ok ("application/json", ps) →
      Effect.readBody maxBodySize ∈ (handleSlackEvent lib r).trace
      ∧ (handleSlackEvent lib r).w.status ≠ some 400
      ∧ (handleSlackEvent lib r).w.status ≠ some 415) := by
  have hm : ¬ (r.method ≠ MethodPost) := by simp [h, MethodPost]
  refine ⟨?_, ?_, ?_⟩
  · intro e he
    unfold handleSlackEvent
    simp only [hm, if_false, he]
    exact ⟨rfl, by intro n; simp⟩
  · intro mt ps he hne
    unfold handleSlackEvent
    simp only [hm, if_false, he, hne, ne_eq, not_false_eq_true, if_true]
    exact ⟨rfl, by intro n; simp⟩
  · intro ps he
    unfold handleSlackEvent urlVerification
    simp only [hm, if_false, he, ne_eq, not_true_eq_false]
    repeat' split
    all_goals simp [ResponseWriter.WriteHeader, ResponseWriter.Write, ResponseWriter.SetHeader,
      StatusInternalServerError, StatusUnprocessableEntity]

set_option maxRecDepth 10000 in
/-- Claim C3 at three POST requests: no Content-Type, text/plain, and
application/json with a charset parameter. -/
theorem handleSlackEvent_content_type_witness :
    (postRequest [] []).method = "POST"
    ∧ (handleSlackEvent refLib (postRequest [] [])).response =
      some { status := 400, header := [("Accept", "application/json; charset=utf-8")], body := "" }
    ∧ (handleSlackEvent refLib (postRequest [("Content-Type", "text/plain")] [])).response =
      some { status := 415, header := [("Accept", "application/json; charset=utf-8")], body := "" }
    ∧ Effect.readBody maxBodySize ∈
        (handleSlackEvent refLib
          (postRequest [("Content-Type", "application/json; charset=utf-8")] [])).trace :=
  ⟨rfl,
   ((handleSlackEvent_content_type refLib (postRequest [] []) rfl).1 _ rfl).1,
   ((handleSlackEvent_content_type refLib (postRequest [("Content-Type", "text/plain")] [])
      rfl).2.1 _ _ rfl (by decide)).1,
   ((handleSlackEvent_content_type refLib
      (postRequest [("Content-Type", "application/json; charset=utf-8")] []) rfl).2.2
      [("charset", "utf-8")] rfl).1⟩

/-- Claim C4: for a POST request with media type application/json whose body,
as read, parses to a document whose "type" is a string other than
"url_verification": if "event_id" is missing or not a string, or "event_time" is
missing or not an integer, or "event" is missing, the status is 422 and
`processFurther` is not called. -/
theorem handleSlackEvent_missing_fields (lib : Lib) (r : Request) (h : r.method = "POST")
    (ps : List (String × String))
    (he : lib.ParseMediaType (Header.Get r.header "Content-Type") = .ok ("application/json", ps))
    (bs : List UInt8) (hb : ReadAllLimit r.body maxBodySize = .ok bs)
    (doc : Value) (hd : lib.ParseBytes bs = .ok doc)
    (t : String) (ht : doc.Get "type" = some (.string t)) (hne : t ≠ "url_verification")
    (hbad : doc.Get "event_id" = none
      ∨ (∃ v, doc.Get "event_id" = some v ∧ ∀ s, v ≠ .string s)
      ∨ doc.Get "event_time" = none
      ∨ (∃ v, doc.Get "event_time" = some v ∧ v.isInteger = false)
      ∨ doc.Get "event" = none) :
    (handleSlackEvent lib r).response = some { status := 422, header := [], body := "" }
    ∧ ∀ ev, Effect.processFurther ev ∉ (handleSlackEvent lib r).trace := by
  have hm : ¬ (r.method ≠ MethodPost) := by simp [h, MethodPost]
  unfold handleSlackEvent
  simp only [hm, if_false, he, ne_eq, not_true_eq_false, hb, hd]
  cases hrv : requestValues doc with
  | error e => exact ⟨rfl, by intro ev; simp⟩
  | ok val =>
    obtain ⟨a, b, c⟩ := val
    obtain ⟨h1, h2, v, h3, h4⟩ := requestValues_ok doc t a b c ht hne hrv
    subst h1
    have hev : doc.Get "event" = none := by
      rcases hbad with hx | ⟨w, hw, hx⟩ | hx | ⟨w, hw, hx⟩ | hx
      · rw [hx] at h2; cases h2
      · rw [hw] at h2; cases h2; exact absurd rfl (hx b)
      · rw [hx] at h3; cases h3
      · rw [hw] at h3; cases h3
        rw [Int64_ok_isInteger _ _ h4] at hx; cases hx
      · exact hx
    simp only [hne, if_false, hev]
    exact ⟨rfl, by intro ev; simp⟩

set_option maxRecDepth 10000 in
/-- Claim C4 at an event_callback that has no "event_id". -/
theorem handleSlackEvent_missing_fields_witness :
    (jsonPost (bytesOf callbackWithoutID)).method = "POST"
    ∧ refLib.ParseMediaType (Header.Get (jsonPost (bytesOf callbackWithoutID)).header "Content-Type")
        = .ok ("application/json", [])
    ∧ ReadAllLimit (jsonPost (bytesOf callbackWithoutID)).body maxBodySize =
        .ok (bytesOf callbackWithoutID)
    ∧ refLib.ParseBytes (bytesOf callbackWithoutID) = .ok callbackWithoutIDDoc
    ∧ callbackWithoutIDDoc.Get "type" = some (.string "event_callback")
    ∧ "event_callback" ≠ "url_verification"
    ∧ callbackWithoutIDDoc.Get "event_id" = none
    ∧ (handleSlackEvent refLib (jsonPost (bytesOf callbackWithoutID))).response =
        some { status := 422, header := [], body := "" } :=
  ⟨rfl, rfl, rfl, rfl, rfl, by decide, rfl,
    (handleSlackEvent_missing_fields refLib (jsonPost (bytesOf callbackWithoutID)) rfl [] rfl
      (bytesOf callbackWithoutID) rfl callbackWithoutIDDoc rfl "event_callback" rfl (by decide)
      (Or.inl rfl)).1⟩

/-- Claim C10, as amended: for a POST request with media type application/json
whose body is read without an I/O error, the bytes handed to
`fastjson.ParseBytes` are the first min(n, 2097152) bytes of the n-byte body,
and nothing else is handed to it; whenever `fastjson.ParseBytes` rejects those
bytes the status is 422. -/
theorem handleSlackEvent_body_limit (lib : Lib) (r : Request) (h : r.method = "POST")
    (ps : List (String × String))
    (he : lib.ParseMediaType (Header.Get r.header "Content-Type") = .ok ("application/json", ps))
    (bs : List UInt8) (hb : ReadAllLimit r.body maxBodySize = .ok bs) :
    bs = r.body.data.take (min r.body.data.length 2097152)
    ∧ bs.length = min r.body.data.length 2097152
    ∧ Effect.parseJSON bs ∈ (handleSlackEvent lib r).trace
    ∧ (∀ x, Effect.parseJSON x ∈ (handleSlackEvent lib r).trace → x = bs)
    ∧ (∀ e, lib.ParseBytes bs = .error e →
        (handleSlackEvent lib r).response = some { status := 422, header := [], body := "" }) := by
  have hm : ¬ (r.method ≠ MethodPost) := by simp [h, MethodPost]
  have hbs := ReadAllLimit_ok r.body bs hb
  refine ⟨hbs, ?_, ?_, ?_, ?_⟩
  · rw [hbs, List.length_take]; simp
  · unfold handleSlackEvent urlVerification
    simp only [hm, if_false, he, ne_eq, not_true_eq_false, hb]
    repeat' split
    all_goals simp
  · intro x
    unfold handleSlackEvent urlVerification
    simp only [hm, if_false, he, ne_eq, not_true_eq_false, hb]
    repeat' split
    all_goals simp
    all_goals
      intro hx
      rcases hx with hx | hx
      · exact hx
      · exact absurd hx (processFurther_no_parseJSON _ _ _ _ _ (by assumption) x)
  · intro e hp
    exact handleSlackEvent_parse_error lib r h ps he bs hb e hp

/-- The amended claim C10 at a body of 2097152 spaces followed by a JSON object:
the parser is handed the spaces only, and the status is 422. -/
theorem handleSlackEvent_body_limit_witness :
    paddedVerification.method = "POST"
    ∧ refLib.ParseMediaType (Header.Get paddedVerification.header "Content-Type") =
        .ok ("application/json", [])
    ∧ ReadAllLimit paddedVerification.body maxBodySize = .ok (List.replicate maxBodySize 0x20)
    ∧ Effect.parseJSON (List.replicate maxBodySize 0x20) ∈
        (handleSlackEvent refLib paddedVerification).trace
    ∧ (handleSlackEvent refLib paddedVerification).response =
        some { status := 422, header := [], body := "" } :=
  ⟨rfl, rfl, ReadAllLimit_paddedVerification,
    (handleSlackEvent_body_limit refLib paddedVerification rfl [] rfl _
      ReadAllLimit_paddedVerification).2.2.1,
    (handleSlackEvent_body_limit refLib paddedVerification rfl [] rfl _
      ReadAllLimit_paddedVerification).2.2.2.2 _ (refLib_ParseBytes_spaces maxBodySize)⟩

set_option maxRecDepth 20000 in
/-- Claim C10 fails as stated.  The body of `malformedNumberText` is read whole
and without error, and it is not a well-formed JSON document: its member "n"
has the value 1.2.3, which is no number of the grammar (the same text with 1.23
is well formed).  The parser takes number text without checking its form, as
the number scan of fastjson does, so the document is accepted and the request
is answered with status 200 and the challenge, not with 422. -/
theorem handleSlackEvent_body_limit_counterexample :
    (jsonPost (bytesOf malformedNumberText)).method = "POST"
    ∧ refLib.ParseMediaType
        (Header.Get (jsonPost (bytesOf malformedNumberText)).header "Content-Type") =
        .ok ("application/json", [])
    ∧ ReadAllLimit (jsonPost (bytesOf malformedNumberText)).body maxBodySize =
        .ok (bytesOf malformedNumberText)
    ∧ (bytesOf malformedNumberText).length ≤ 2097152
    ∧ wellFormedJSON (bytesOf malformedNumberText) = false
    ∧ wellFormedJSON (bytesOf wellFormedNumberText) = true
    ∧ (handleSlackEvent refLib (jsonPost (bytesOf malformedNumberText))).response =
        some { status := 200, header := [("Content-Type", "plain/text")], body := "abc" } :=
  ⟨rfl, rfl, rfl, by decide, rfl, rfl, rfl⟩

/-- Claim C8 does not hold of the code: `processFurther` reads the member whose
key is the empty string, not "type".  An event whose "type" is "app_mention" is
not handed to `handleMentionEvents`, and for it as for an event of any other
type `processFurther` returns an error; the mention handler runs only when the
member with the empty key is "app_mention". -/
theorem processFurther_reads_empty_key :
    processFurther (.object [("type", .string "app_mention")]) [] =
      ([.log "error" [("error", "failed to get field : key does not exist")]
          "Error getting event type"],
        none, some "failed to get field : key does not exist")
    ∧ processFurther (.object [("type", .string "team_join")]) [] =
      ([.log "error" [("error", "failed to get field : key does not exist")]
          "Error getting event type"],
        none, some "failed to get field : key does not exist")
    ∧ (processFurther (.object [("type", .string "team_join"), ("", .string "app_mention")]) []).1 =
      [.handleMentionEvents (.object [("type", .string "team_join"), ("", .string "app_mention")])]
    ∧ (processFurther (.object [("", .string "reaction_added")]) []) = ([], none, none) :=
  ⟨rfl, rfl, rfl, rfl⟩

set_option maxRecDepth 10000 in
/-- Claim C9 does not hold of the code: `handleMentionEvents` indexes the block
and element lists without looking at their lengths or at the errors of
`Array`.  An event without "blocks" ends in a nil dereference, an empty blocks
array in an index out of range at `blocks[0]`, a first block without
"elements" in a nil dereference, and an inner list of one element in an index
out of range at `elements[1]`.  A request that reaches the handler with such an
event gets no response at all instead of status 200. -/
theorem handleMentionEvents_panics :
    handleMentionEvents (.object []) = ([], some .nilDeref)
    ∧ handleMentionEvents (.object [("", .string "app_mention"), ("blocks", .array [])]) =
        ([], some (.indexOutOfRange 0 0))
    ∧ handleMentionEvents (.object [("blocks", .array [.object [("type", .string "rich_text")]])]) =
        ([], some .nilDeref)
    ∧ handleMentionEvents (.object [("blocks", .array [.object [("elements",
        .array [.object [("elements", .array [.object [("type", .string "user")]])]])]])]) =
        ([], some (.indexOutOfRange 1 1))
    ∧ (handleSlackEvent refLib (jsonPost (bytesOf
        (callbackText "\x7b\"\":\"app_mention\",\"blocks\":[]\x7d")))).panic =
        some (.indexOutOfRange 0 0)
    ∧ (handleSlackEvent refLib (jsonPost (bytesOf
        (callbackText "\x7b\"\":\"app_mention\",\"blocks\":[]\x7d")))).response = none :=
  ⟨rfl, rfl, rfl, rfl, rfl, rfl⟩

/-- Claim C5, against the middleware as the specification describes it: a
request to /slack/event without a signature header, or whose signature differs
from the keyed hash of timestamp and raw body under the request secret, is
answered with status 401, and `handleSlackEvent` is not run: the result is the
one the middleware gives around any other handler, and its only effect is one
log line. -/
theorem slackHandler_unauthorized (lib : Lib) (hmac : String → String → List UInt8 → String)
    (cfg : SlackConfig) (rid : String) (r : Request)
    (h : r.header.lookup signatureHeader = none
      ∨ ∃ supplied, r.header.lookup signatureHeader = some supplied
          ∧ supplied ≠ hmac cfg.RequestSecret (Header.Get r.header timestampHeader) r.body.data) :
    (slackHandler lib hmac cfg rid r).response = some { status := 401, header := [], body := "" }
    ∧ (∀ x ∈ (slackHandler lib hmac cfg rid r).trace, ∃ m, x = Effect.log "error" [] m)
    ∧ ∀ next : Request → HResult,
        chMiddlewareFactory rid (slackSignatureMiddlewareFactory hmac cfg next) r =
          slackHandler lib hmac cfg rid r := by
  have key : ∃ m, ∀ next : Request → HResult,
      chMiddlewareFactory rid (slackSignatureMiddlewareFactory hmac cfg next) r =
        { w := ({} : ResponseWriter).WriteHeader StatusUnauthorized,
          trace := [.log "error" [] m] } := by
    rcases h with h | ⟨supplied, h, hne⟩
    · refine ⟨"missing request signature", fun next => ?_⟩
      unfold chMiddlewareFactory slackSignatureMiddlewareFactory
      simp only [h]
    · refine ⟨"request signature mismatch", fun next => ?_⟩
      unfold chMiddlewareFactory slackSignatureMiddlewareFactory
      simp only [h, hne, if_false]
  obtain ⟨m, key⟩ := key
  unfold slackHandler
  refine ⟨?_, ?_, ?_⟩
  · rw [key]; rfl
  · rw [key]
    intro x hx
    simp only [List.mem_singleton] at hx
    exact ⟨m, hx⟩
  · intro next
    rw [key, key]

set_option maxRecDepth 10000 in
/-- Claim C5 at a request whose signature header does not carry the keyed hash. -/
theorem slackHandler_unauthorized_witness :
    (∃ supplied, forgedRequest.header.lookup signatureHeader = some supplied
      ∧ supplied ≠ refHmac refConfig.RequestSecret
          (Header.Get forgedRequest.header timestampHeader) forgedRequest.body.data)
    ∧ (slackHandler refLib refHmac refConfig "req-1" forgedRequest).response =
        some { status := 401, header := [], body := "" } :=
  ⟨⟨_, rfl, by decide⟩,
    (slackHandler_unauthorized refLib refHmac refConfig "req-1" forgedRequest
      (Or.inr ⟨_, rfl, by decide⟩)).1⟩

/-! ## runServer -/

theorem init_inv : Inv init := by
  simp [Inv, init]

theorem step_inv (s s2 : State) (a : Action) (hi : Inv s) (h : step s a = some s2) : Inv s2 := by
  obtain ⟨sig, w, m, sv, sd, se, she, sc, sdl, cc, sm, lc⟩ := s
  cases a <;> cases m <;> cases sd <;> cases sig <;>
    simp [step, State.alive] at h <;>
    obtain ⟨_, rfl⟩ := h <;>
    simp_all [Inv]

theorem run_inv (as : List Action) : ∀ (s s2 : State), Inv s → run s as = some s2 → Inv s2 := by
  induction as with
  | nil =>
    intro s s2 hi h
    simp only [run, Option.some.injEq] at h
    exact h ▸ hi
  | cons a as ih =>
    intro s s2 hi h
    unfold run at h
    cases hs : step s a with
    | none => simp [hs] at h
    | some s1 =>
      simp only [hs] at h
      exact ih s1 s2 (step_inv s s1 a hi hs) h

/-- Once the summary line is out, no step changes it or the two errors. -/
theorem step_frozen (s s2 : State) (a : Action) (hi : Inv s) (hs : s.summaries ≠ [])
    (h : step s a = some s2) :
    s2.summaries = s.summaries ∧ s2.serveErr = s.serveErr ∧ s2.shutdownErr = s.shutdownErr := by
  obtain ⟨sig, w, m, sv, sd, se, she, sc, sdl, cc, sm, lc⟩ := s
  cases a <;> cases m <;> cases sd <;> cases sig <;>
    simp [step, State.alive] at h <;>
    obtain ⟨_, rfl⟩ := h <;>
    simp_all [Inv]

theorem run_frozen (as : List Action) : ∀ (s s2 : State), Inv s → s.summaries ≠ [] →
    run s as = some s2 →
    s2.summaries = s.summaries ∧ s2.serveErr = s.serveErr ∧ s2.shutdownErr = s.shutdownErr := by
  induction as with
  | nil =>
    intro s s2 _ _ h
    simp only [run, Option.some.injEq] at h
    subst h
    exact ⟨rfl, rfl, rfl⟩
  | cons a as ih =>
    intro s s2 hi hne h
    unfold run at h
    cases hs : step s a with
    | none => simp [hs] at h
    | some s1 =>
      simp only [hs] at h
      obtain ⟨h1, h2, h3⟩ := step_frozen s s1 a hi hne hs
      obtain ⟨k1, k2, k3⟩ := ih s1 s2 (step_inv s s1 a hi hs) (h1 ▸ hne) h
      exact ⟨k1.trans h1, k2.trans h2, k3.trans h3⟩

/-- The only step that changes the number of `Shutdown` calls is the receive of
the second goroutine, which takes a signal out of the channel. -/
theorem step_shutdownCalls (s s2 : State) (a : Action) (h : step s a = some s2) :
    s2.shutdownCalls = s.shutdownCalls ∨
      (a = .shutdownRecv ∧ s.signalCh ≠ none ∧ s.shutdown = .waiting ∧
        s2.shutdownCalls = s.shutdownCalls + 1 ∧ s2.shutdownDeadline = some 25) := by
  obtain ⟨sig, w, m, sv, sd, se, she, sc, sdl, cc, sm, lc⟩ := s
  cases a <;> cases m <;> cases sig <;>
    simp [step, State.alive] at h <;>
    obtain ⟨_, rfl⟩ := h <;>
    simp_all

/-- With the channel empty and no signal delivered, `Shutdown` is not called. -/
theorem run_without_signal (as : List Action) : ∀ (s s2 : State), s.signalCh = none →
    (∀ a ∈ as, a.isDeliver = false) → run s as = some s2 →
    s2.shutdownCalls = s.shutdownCalls ∧ s2.signalCh = none := by
  induction as with
  | nil =>
    intro s s2 hc _ h
    simp only [run, Option.some.injEq] at h
    subst h
    exact ⟨rfl, hc⟩
  | cons a as ih =>
    intro s s2 hc hd h
    unfold run at h
    cases hs : step s a with
    | none => simp [hs] at h
    | some s1 =>
      simp only [hs] at h
      have ha : a.isDeliver = false := hd a (List.mem_cons_self _ _)
      have h1 : s1.shutdownCalls = s.shutdownCalls ∧ s1.signalCh = none := by
        obtain ⟨sig, w, m, sv, sd, se, she, sc, sdl, cc, sm, lc⟩ := s
        simp only at hc
        subst hc
        cases a <;> cases m <;>
          simp [step, State.alive, Action.isDeliver] at hs ha <;>
          obtain ⟨_, rfl⟩ := hs <;>
          simp
      obtain ⟨k1, k2⟩ := ih s1 s2 h1.2 (fun b hb => hd b (List.mem_cons_of_mem _ hb)) h
      exact ⟨k1.trans h1.1, k2⟩

/-- In every state the invariant allows, at most one `Shutdown` call was made,
it got 25 seconds, and none was made while the second goroutine still waits. -/
theorem inv_shutdownCalls (t : State) (ht : Inv t) :
    t.shutdownCalls ≤ 1 ∧ (t.shutdownCalls = 1 → t.shutdownDeadline = some 25) ∧
      (t.shutdown = .waiting → t.shutdownCalls = 0) := by
  obtain ⟨sig, w, m, sv, sd, se, she, sc, sdl, cc, sm, lc⟩ := t
  cases sd <;> simp_all [Inv]

theorem run_shutdownCalls_one (as : List Action) : ∀ (s s2 : State), Inv s →
    s.shutdownCalls = 1 → run s as = some s2 → s2.shutdownCalls = 1 := by
  induction as with
  | nil =>
    intro s s2 _ h1 hr
    simp only [run, Option.some.injEq] at hr
    exact hr ▸ h1
  | cons a as ih =>
    intro s s2 hi h1 hr
    unfold run at hr
    cases hs : step s a with
    | none => simp [hs] at hr
    | some s1 =>
      simp only [hs] at hr
      have h11 : s1.shutdownCalls = 1 := by
        rcases step_shutdownCalls s s1 a hs with heq | ⟨_, _, hw, _, _⟩
        · rw [heq, h1]
        · have := (inv_shutdownCalls s hi).2.2 hw
          omega
      exact ih s1 s2 (step_inv s s1 a hi hs) h11 hr

/-- Claim C6, as amended: in every run of `runServer`, `httpSrvr.Shutdown` is
called at most once, with a deadline of 25 seconds; the only step that starts it
is the second goroutine taking a SIGINT or SIGTERM out of the signal channel,
so the return of `Serve`, with whatever error, does not start it; and once it
has been started no schedule, whatever signals it delivers, starts it again. -/
theorem runServer_shutdown_at_most_once (as : List Action) (s : State)
    (h : run init as = some s) :
    s.shutdownCalls ≤ 1
    ∧ (s.shutdownCalls = 1 → s.shutdownDeadline = some 25)
    ∧ (∀ a s2, step s a = some s2 → s2.shutdownCalls ≠ s.shutdownCalls →
        a = .shutdownRecv ∧ s.signalCh ≠ none ∧ s.shutdownCalls = 0 ∧ s2.shutdownCalls = 1)
    ∧ (∀ e s2, step s (.serveReturn e) = some s2 → s2.shutdownCalls = s.shutdownCalls)
    ∧ (∀ as2 s2, s.shutdownCalls = 1 → run s as2 = some s2 → s2.shutdownCalls = 1) := by
  have hi : Inv s := run_inv as init s init_inv h
  have hle := inv_shutdownCalls
  refine ⟨(hle s hi).1, (hle s hi).2.1, ?_, ?_, ?_⟩
  · intro a s2 hs hne
    rcases step_shutdownCalls s s2 a hs with heq | ⟨ha, hsig, hw, hc, _⟩
    · exact absurd heq hne
    · have h0 := (hle s hi).2.2 hw
      exact ⟨ha, hsig, h0, by rw [hc, h0]⟩
  · intro e s2 hs
    rcases step_shutdownCalls s s2 _ hs with heq | ⟨ha, _⟩
    · exact heq
    · cases ha
  · intro as2 s2 h1 hr
    exact run_shutdownCalls_one as2 s s2 hi h1 hr

/-- The amended claim C6 on a run in which two more signals arrive while
`Shutdown` is in progress. -/
theorem runServer_shutdown_at_most_once_witness :
    run init secondSignalSchedule = some secondSignalState
    ∧ secondSignalState.shutdownCalls ≤ 1
    ∧ (secondSignalState.shutdownCalls = 1 → secondSignalState.shutdownDeadline = some 25) :=
  ⟨rfl, (runServer_shutdown_at_most_once secondSignalSchedule secondSignalState rfl).1,
    (runServer_shutdown_at_most_once secondSignalSchedule secondSignalState rfl).2.1⟩

/-- Claim C6 fails as stated.  After `Serve` has returned an unexpected error, no
schedule starts `Shutdown` unless a signal is delivered; and after the first
goroutine has taken the first signal out of the channel, no schedule starts
`Shutdown` unless a further signal is delivered. -/
theorem runServer_shutdown_counterexample :
    (run init serveFailsSchedule = some serveFailsState
      ∧ serveFailsState.serve = .stopped
      ∧ serveFailsState.shutdownCalls = 0
      ∧ ∀ as s2, (∀ a ∈ as, a.isDeliver = false) → run serveFailsState as = some s2 →
          s2.shutdownCalls = 0)
    ∧ (run init signalLostSchedule = some signalLostState
      ∧ signalLostState.shutdownCalls = 0
      ∧ ∀ as s2, (∀ a ∈ as, a.isDeliver = false) → run signalLostState as = some s2 →
          s2.shutdownCalls = 0) := by
  refine ⟨⟨rfl, rfl, rfl, ?_⟩, ⟨rfl, rfl, ?_⟩⟩
  · intro as s2 hd hr
    exact (run_without_signal as _ s2 rfl hd hr).1
  · intro as s2 hd hr
    exact (run_without_signal as _ s2 rfl hd hr).1

/-- Claim C7: in every run of `runServer` the "server shut down" line is emitted
at most once, and only after `Serve` has returned and `serveStop` is closed and
`Shutdown` has returned and `serverShutdown` is closed; the two errors it logs
are the values of `serveErr` and `shutdownErr`, which no later step changes, and
no later step emits the line again; the listener is closed, and `runServer`
returns nil, only after that line. -/
theorem runServer_summary_once (as : List Action) (s : State) (h : run init as = some s) :
    s.summaries.length ≤ 1
    ∧ (∀ l ∈ s.summaries,
        s.serve = .stopped ∧ s.shutdown = .done ∧ l = (s.serveErr, s.shutdownErr))
    ∧ (s.main = .returned → s.summaries.length = 1)
    ∧ (0 < s.listenerCloses → s.main = .returned ∧ s.summaries.length = 1)
    ∧ s.listenerCloses ≤ 1
    ∧ (∀ as2 s2, s.summaries ≠ [] → run s as2 = some s2 →
        s2.summaries = s.summaries ∧ s2.serveErr = s.serveErr ∧ s2.shutdownErr = s.shutdownErr) := by
  have hi : Inv s := run_inv as init s init_inv h
  refine ⟨?_, ?_, ?_, ?_, ?_, ?_⟩
  · obtain ⟨sig, w, m, sv, sd, se, she, sc, sdl, cc, sm, lc⟩ := s
    cases m <;> simp_all [Inv]
  · obtain ⟨sig, w, m, sv, sd, se, she, sc, sdl, cc, sm, lc⟩ := s
    cases m <;> simp_all [Inv]
  · obtain ⟨sig, w, m, sv, sd, se, she, sc, sdl, cc, sm, lc⟩ := s
    cases m <;> simp_all [Inv]
  · obtain ⟨sig, w, m, sv, sd, se, she, sc, sdl, cc, sm, lc⟩ := s
    cases m <;> simp_all [Inv]
  · obtain ⟨sig, w, m, sv, sd, se, she, sc, sdl, cc, sm, lc⟩ := s
    cases m <;> simp_all [Inv]
  · intro as2 s2 hne hr
    exact run_frozen as2 s s2 hi hne hr

/-- Claim C7 on a complete run: bind, signal, `Shutdown`, `Serve` returns, both
channels closed, summary, return. -/
theorem runServer_summary_once_witness :
    run init completeSchedule = some completeState
    ∧ completeState.summaries.length ≤ 1
    ∧ (∀ l ∈ completeState.summaries,
        completeState.serve = .stopped ∧ completeState.shutdown = .done ∧
          l = (completeState.serveErr, completeState.shutdownErr)) :=
  ⟨rfl, (runServer_summary_once completeSchedule completeState rfl).1,
    (runServer_summary_once completeSchedule completeState rfl).2.1⟩

end Greetbot
